import Mathlib

/-!
Shallow embedding of the lead-extraction pipeline of `app.py`
(BPO LeadGen Pro).  Python strings are modelled as Lean `String`
(`List Char` underneath); the randomness of `random.choice` and
`random.randint` is modelled by explicit oracle arguments; the
Gemini LLM call and the HTTP search response are modelled as
`Except`-valued inputs.  All definitions are executable and follow
the Python source line by line.
-/

namespace BPO

/-! ### Python string primitives -/

/-- Python `str.strip()`: drop whitespace from both ends. -/
def pyStrip (s : String) : String :=
  String.mk (((s.data.dropWhile Char.isWhitespace).reverse.dropWhile Char.isWhitespace).reverse)

/-- Python `str.lower()` (ASCII case folding, as used by the source's data). -/
def pyLower (s : String) : String := String.mk (s.data.map Char.toLower)

/-- Python `str.upper()` (ASCII case folding). -/
def pyUpper (s : String) : String := String.mk (s.data.map Char.toUpper)

/-- Python single-character `str.split(sep)`: keeps empty pieces,
`"" .split(sep) = [""]`. -/
def pySplitCharGo (sep : Char) : List Char → List Char → List String
  | [], acc => [String.mk acc.reverse]
  | c :: rest, acc =>
    if c = sep then String.mk acc.reverse :: pySplitCharGo sep rest []
    else pySplitCharGo sep rest (c :: acc)

/-- Python `s.split(sep)` for a one-character separator. -/
def pySplitChar (sep : Char) (s : String) : List String :=
  pySplitCharGo sep s.data []

/-- Boolean infix test on character lists (Python's `sub in s`). -/
def listIsInfixOf (sub : List Char) : List Char → Bool
  | [] => sub.isEmpty
  | c :: rest => sub.isPrefixOf (c :: rest) || listIsInfixOf sub rest

/-- Python `needle in haystack` for strings. -/
def pyContains (haystack needle : String) : Bool :=
  listIsInfixOf needle.data haystack.data

/-- Python `s.startswith(pre)`. -/
def pyStartsWith (s pre : String) : Bool :=
  pre.data.isPrefixOf s.data

/-- Fuel-driven worker for Python `str.replace` (leftmost,
non-overlapping, all occurrences).  The fuel is an upper bound on the
number of characters still to be examined, so structural recursion
suffices and the kernel can evaluate it. -/
def pyReplaceGo (pat repl : List Char) : Nat → List Char → List Char
  | 0, s => s
  | _ + 1, [] => []
  | fuel + 1, c :: rest =>
    if pat.isPrefixOf (c :: rest) && !pat.isEmpty then
      repl ++ pyReplaceGo pat repl fuel (rest.drop (pat.length - 1))
    else
      c :: pyReplaceGo pat repl fuel rest

/-- Python `s.replace(pat, repl)` for a non-empty pattern. -/
def pyReplace (s pat repl : String) : String :=
  String.mk (pyReplaceGo pat.data repl.data s.data.length s.data)

/-- Python `random.choice(l)` driven by an oracle value `k`:
returns `l[k % len(l)]`. -/
def pyChoice (l : List String) (k : Nat) : String :=
  l.getD (k % l.length) ""

/-- First word of Python `s.split()[0]` (whitespace split, empty pieces
discarded). -/
def firstWord (s : String) : String :=
  (((pySplitChar ' ' s).filter (fun w => w ≠ "")).headD "")

/-! ### Static configuration (`REGION_MAP`, `ROLES_BY_SERVICE`) -/

/-- One entry of `REGION_MAP`. -/
structure RegionCfg where
  key : String
  query : String
  gl : String
  signals : List String
  cls : String
deriving DecidableEq, Repr

/-- The six keys of `REGION_MAP`. -/
inductive Region
  | ukStartups | ukTop | usaStartups | usaTop | indiaStartups | indiaTop
deriving DecidableEq, Repr

/-- `REGION_MAP` from the source, verbatim. -/
def REGION_MAP : Region → RegionCfg
  | .ukStartups =>
    { key := "UK – Startups", query := "UK startup company headquarters contact",
      gl := "uk", signals := ["startup", "limited", "ltd", "ventures"], cls := "Startup" }
  | .ukTop =>
    { key := "UK – Top Priced Companies", query := "FTSE 100 plc headquarters contact",
      gl := "uk", signals := ["plc", "FTSE"], cls := "Listed Enterprise" }
  | .usaStartups =>
    { key := "USA – Startups", query := "US startup company headquarters contact",
      gl := "us", signals := ["startup", "inc", "ventures"], cls := "Startup" }
  | .usaTop =>
    { key := "USA – Top Priced Companies", query := "S&P 500 company headquarters contact",
      gl := "us", signals := ["NYSE", "NASDAQ", "Corp"], cls := "Listed Enterprise" }
  | .indiaStartups =>
    { key := "India – Startups", query := "Indian startup private limited company contact",
      gl := "in", signals := ["startup", "pvt", "private"], cls := "Startup" }
  | .indiaTop =>
    { key := "India – Top Priced Companies", query := "NIFTY 50 listed company corporate office contact",
      gl := "in", signals := ["limited", "ltd", "NSE", "BSE"], cls := "Listed Enterprise" }

/-- The keys of `ROLES_BY_SERVICE`. -/
inductive Service
  | hiring | customerSupport | sourcing
deriving DecidableEq, Repr

/-- `ROLES_BY_SERVICE` from the source, verbatim. -/
def ROLES_BY_SERVICE : Service → List String
  | .hiring => ["HR Manager", "Head of Talent", "Chief People Officer"]
  | .customerSupport => ["Head of Operations", "Support Director"]
  | .sourcing => ["Procurement Head", "VP Procurement"]

/-- Python `sum(ROLES_BY_SERVICE.values(), [])` (insertion order). -/
def allServiceRoles : List String :=
  ROLES_BY_SERVICE .hiring ++ ROLES_BY_SERVICE .customerSupport ++ ROLES_BY_SERVICE .sourcing

/-! ### Lead records -/

/-- One output row (the dict appended to `leads` / produced by
`get_simulation_data`). -/
structure Lead where
  company : String
  phone : String
  decisionMaker : String
  sourceLink : String
  location : String
  companyClass : String
  leadType : String
deriving DecidableEq, Repr

/-! ### Utilities from the source -/

/-- The character class kept by `re.sub(r"[^\d+]", "", ...)`. -/
def keepChar (c : Char) : Bool := c.isDigit || c == '+'

/-- `normalize_phone` from the source: strip every character that is not
a digit or `+`; if fewer than 8 characters remain (the `+` counts),
return the sentinel. -/
def normalize_phone (phone : String) : String :=
  let p := String.mk (phone.data.filter keepChar)
  if 8 ≤ p.length then p else "Visit Website"

/-- `company_matches_target` from the source: the lower-cased company
name must contain some lower-cased signal as a substring. -/
def company_matches_target (company_name : String) (signals : List String) : Bool :=
  let name := pyLower company_name
  signals.any (fun sig => pyContains name (pyLower sig))

/-! ### The phone regex `(\+?\d[\d \-]{8,15})` -/

/-- Character class `[\d \-]`. -/
def isClassChar (c : Char) : Bool := c.isDigit || c == ' ' || c == '-'

/-- Try to match `\+?\d[\d \-]{8,15}` at the head of `cs`
(greedy, with the backtracking Python's `re` performs). -/
def phoneMatchAt (cs : List Char) : Option (List Char) :=
  match cs with
  | [] => none
  | c :: rest =>
    if c = '+' then
      match rest with
      | [] => none
      | c2 :: rest2 =>
        if c2.isDigit then
          let run := rest2.takeWhile isClassChar
          if 8 ≤ run.length then some ('+' :: c2 :: run.take 15) else none
        else none
    else if c.isDigit then
      let run := rest.takeWhile isClassChar
      if 8 ≤ run.length then some (c :: run.take 15) else none
    else none

/-- Leftmost match of the phone pattern (`re.findall(...)[0]`). -/
def findPhone : List Char → Option (List Char)
  | [] => none
  | c :: rest =>
    match phoneMatchAt (c :: rest) with
    | some m => some m
    | none => findPhone rest

/-- Lines 253–254 of the source: first regex match normalized, or the
sentinel when the line has no match. -/
def extract_phone_line (line : String) : String :=
  match findPhone line.data with
  | some m => normalize_phone (String.mk m)
  | none => "Visit Website"

/-! ### Simulation mode -/

/-- `get_simulation_data`: `nums i` drives `random.randint(100, 999)` and
`picks i` drives `random.choice` over the concatenation of all
services' role lists. -/
def get_simulation_data (region : Region) (count : Nat) (nums picks : Nat → Nat) : List Lead :=
  let cfg := REGION_MAP region
  (List.range count).map fun i =>
    { company := "Simulated " ++ firstWord cfg.key ++ " Corp " ++ toString (100 + nums i % 900)
      phone := "+1-800-555-1234"
      decisionMaker := pyChoice allServiceRoles (picks i)
      sourceLink := "https://www.example.com"
      location := pyUpper cfg.gl
      companyClass := cfg.cls
      leadType := "SIMULATED" }

/-! ### `search_google` -/

/-- One element of the response's `items` array; `none` fields model
missing JSON keys (`item['title']` / `item['link']` raise `KeyError`,
`item.get('snippet','')` defaults). -/
structure SearchItem where
  title : Option String
  snippet : Option String
  link : Option String
deriving DecidableEq, Repr

/-- The decoded JSON payload: an optional error message and the
optional `items` list. -/
structure SearchPayload where
  error : Option String
  items : Option (List SearchItem)
deriving DecidableEq, Repr

/-- Formatting of one search item (the f-string in the loop);
a missing required key raises. -/
def formatItem (it : SearchItem) : Except String String :=
  match it.title with
  | none => .error "KeyError: title"
  | some t =>
    match it.link with
    | none => .error "KeyError: link"
    | some l =>
      .ok ("Source: " ++ t ++ "\n" ++ "Snippet: " ++ it.snippet.getD "" ++ "\n" ++ "URL: " ++ l)

/-- The result-building loop of `search_google`; the first raising
item aborts the whole `try` block. -/
def buildResults : List SearchItem → Except String (List String)
  | [] => .ok []
  | it :: rest =>
    match formatItem it with
    | .error e => .error e
    | .ok s =>
      match buildResults rest with
      | .error e => .error e
      | .ok l => .ok (s :: l)

/-- `search_google` from the source.  `resp` models the two fallible
external steps: the outer `Except` is `requests.get` raising, the inner
one is `res.json()` raising.  The result is `none` (Python `None`,
the missing-`items` case) or `some` text; every caught exception and
every explicit error payload is surfaced as an `API_ERROR: `-prefixed
string, exactly as in the source's `try`/`except`. -/
def search_google (_query _api_key _cx _gl : String)
    (resp : Except String (Except String SearchPayload)) : Option String :=
  match resp with
  | .error e => some ("API_ERROR: " ++ e)
  | .ok (.error e) => some ("API_ERROR: " ++ e)
  | .ok (.ok data) =>
    match data.error with
    | some msg => some ("API_ERROR: " ++ msg)
    | none =>
      match data.items with
      | none => none
      | some items =>
        match buildResults items with
        | .error e => some ("API_ERROR: " ++ e)
        | .ok results => some (String.intercalate "\n" results)

/-! ### `extract_leads` -/

/-- One iteration of the AI-pass loop (lines 218–234): split the line on
`|`, strip the parts, and build a lead when there are at least three
parts and the company matches a signal keyword. -/
def parseAiLine (cfg : RegionCfg) (line : String) : Option Lead :=
  let parts := (pySplitChar '|' line).map pyStrip
  if 3 ≤ parts.length then
    if company_matches_target (parts.getD 0 "") cfg.signals then
      let phone := normalize_phone (parts.getD 1 "")
      some
        { company := parts.getD 0 ""
          phone := phone
          decisionMaker := parts.getD 2 ""
          sourceLink := if 3 < parts.length then parts.getD 3 "" else "N/A"
          location := pyUpper cfg.gl
          companyClass := cfg.cls
          leadType := if phone ≠ "Visit Website" then "Phone Verified" else "Link Only" }
    else none
  else none

/-- The AI pass over the stripped response text. -/
def aiLeads (raw : String) (cfg : RegionCfg) : List Lead :=
  (pySplitChar '\n' (pyStrip raw)).filterMap (parseAiLine cfg)

/-- The regex-fallback loop (lines 240–264).  The state variables
`company` and `link` start as `"Unknown Company"` / `"N/A"`; `i` counts
the `random.choice` calls made so far and `rnd` is the oracle feeding
them. -/
def fallbackGo (cfg : RegionCfg) (service : Service) (rnd : Nat → Nat) :
    List String → String → String → Nat → List Lead
  | [], _, _, _ => []
  | line :: rest, company, link, i =>
    if pyStartsWith line "Source:" then
      fallbackGo cfg service rnd rest (pyStrip (pyReplace line "Source:" "")) link i
    else if pyStartsWith line "URL:" then
      fallbackGo cfg service rnd rest company (pyStrip (pyReplace line "URL:" "")) i
    else if pyContains line "Snippet:" then
      if company_matches_target company cfg.signals then
        let phone := extract_phone_line line
        { company := company
          phone := phone
          decisionMaker := pyChoice (ROLES_BY_SERVICE service) (rnd i)
          sourceLink := link
          location := pyUpper cfg.gl
          companyClass := cfg.cls
          leadType := if phone ≠ "Visit Website" then "Phone Verified" else "Link Only" }
          :: fallbackGo cfg service rnd rest company link (i + 1)
      else fallbackGo cfg service rnd rest company link i
    else fallbackGo cfg service rnd rest company link i

/-- The regex fallback applied to the whole context string. -/
def fallbackLeads (ctx : String) (cfg : RegionCfg) (service : Service) (rnd : Nat → Nat) :
    List Lead :=
  fallbackGo cfg service rnd (pySplitChar '\n' ctx) "Unknown Company" "N/A" 0

/-- Pandas `drop_duplicates(subset=["Company"])`: keep the first row
with each company value (case-sensitive, as pandas compares). -/
def dropDuplicatesGo (seen : List String) : List Lead → List Lead
  | [] => []
  | l :: ls =>
    if l.company ∈ seen then dropDuplicatesGo seen ls
    else l :: dropDuplicatesGo (l.company :: seen) ls

/-- `df.drop_duplicates(subset=["Company"])`. -/
def drop_duplicates (ls : List Lead) : List Lead := dropDuplicatesGo [] ls

/-- The list produced before the pandas post-processing: the AI pass
when it yielded anything, otherwise the regex fallback.  `aiResp` models
the Gemini call: `.error` is a raised/blocked call (caught by the
source's `try`), `.ok raw` is `response.text`. -/
def leadsOf (aiResp : Except String String) (ctx : String) (region : Region)
    (service : Service) (rnd : Nat → Nat) : List Lead :=
  let cfg := REGION_MAP region
  let ai := match aiResp with
    | .ok raw => aiLeads raw cfg
    | .error _ => []
  if ai.isEmpty then fallbackLeads ctx cfg service rnd else ai

/-- `extract_leads` from the source: build the leads, drop duplicate
companies, truncate to `count` (`df.head(count)`); an empty list when
both passes yielded nothing. -/
def extract_leads (aiResp : Except String String) (ctx : String) (region : Region)
    (service : Service) (rnd : Nat → Nat) (count : Nat) : List Lead :=
  (drop_duplicates (leadsOf aiResp ctx region service rnd)).take count

/-! ### Predicates used in the claim statements -/

/-- Number of decimal digits in a character list. -/
def digitCount (l : List Char) : Nat := (l.filter Char.isDigit).length

/-- "No digit run of length ≥ 8": every maximal (hence every) block of
digits/spaces/dashes in `cs` contains at most 7 digits.  Stated over all
suffixes, which is equivalent and directly computable. -/
def noBigRunB (cs : List Char) : Bool :=
  cs.tails.all (fun suf => decide (digitCount (suf.takeWhile isClassChar) < 8))

/-- No block of digits/spaces/dashes holding 7 or more digits is
immediately preceded by a `+`. -/
def noPlusRunB (cs : List Char) : Bool :=
  cs.tails.all (fun suf =>
    match suf with
    | '+' :: t => decide (digitCount (t.takeWhile isClassChar) < 7)
    | _ => true)

/-- Every field of a lead except its source link. -/
def projNoLink (r : Lead) : String × String × String × String × String × String :=
  (r.company, r.phone, r.decisionMaker, r.location, r.companyClass, r.leadType)

/-- Two context lines that are either identical or both `URL:` lines
(so they may carry different URLs). -/
def UrlAgnostic (a b : String) : Prop :=
  a = b ∨ (pyStartsWith a "URL:" = true ∧ pyStartsWith b "URL:" = true)

/-! ### Helper lemmas -/

theorem normalize_phone_spec (s : String) :
    normalize_phone s = "Visit Website" ∨
      (8 ≤ (normalize_phone s).length ∧ (normalize_phone s).data.all keepChar = true) := by
  unfold normalize_phone
  by_cases h : 8 ≤ (String.mk (s.data.filter keepChar)).length
  · right
    simp only [if_pos h]
    exact ⟨h, List.all_eq_true.mpr (fun c hc => List.of_mem_filter hc)⟩
  · left
    simp only [if_neg h]

theorem extract_phone_line_spec (line : String) :
    extract_phone_line line = "Visit Website" ∨
      ∃ x, extract_phone_line line = normalize_phone x := by
  unfold extract_phone_line
  cases findPhone line.data with
  | none => left; rfl
  | some m => right; exact ⟨String.mk m, rfl⟩

theorem mem_dropDuplicatesGo : ∀ (ls : List Lead) (seen : List String) (x : Lead),
    x ∈ dropDuplicatesGo seen ls → x ∈ ls := by
  intro ls
  induction ls with
  | nil => intro seen x h; simp [dropDuplicatesGo] at h
  | cons l ls ih =>
    intro seen x h
    simp only [dropDuplicatesGo] at h
    by_cases hc : l.company ∈ seen
    · rw [if_pos hc] at h
      exact List.mem_cons_of_mem _ (ih _ _ h)
    · rw [if_neg hc] at h
      rcases List.mem_cons.mp h with h | h
      · exact h ▸ List.mem_cons_self _ _
      · exact List.mem_cons_of_mem _ (ih _ _ h)

theorem mem_leadsOf_of_mem_extract_leads
    (aiResp : Except String String) (ctx : String) (region : Region)
    (service : Service) (rnd : Nat → Nat) (count : Nat) (rec : Lead)
    (h : rec ∈ extract_leads aiResp ctx region service rnd count) :
    rec ∈ leadsOf aiResp ctx region service rnd := by
  unfold extract_leads at h
  exact mem_dropDuplicatesGo _ _ _ ((List.take_sublist _ _).mem h)

theorem mem_leadsOf_cases
    (aiResp : Except String String) (ctx : String) (region : Region)
    (service : Service) (rnd : Nat → Nat) (rec : Lead)
    (h : rec ∈ leadsOf aiResp ctx region service rnd) :
    (∃ raw, aiResp = .ok raw ∧ rec ∈ aiLeads raw (REGION_MAP region)) ∨
      rec ∈ fallbackLeads ctx (REGION_MAP region) service rnd := by
  unfold leadsOf at h
  cases aiResp with
  | error e => simp at h; right; exact h
  | ok raw =>
    simp only at h
    by_cases he : (aiLeads raw (REGION_MAP region)).isEmpty
    · rw [if_pos he] at h; right; exact h
    · rw [if_neg he] at h; left; exact ⟨raw, rfl, h⟩

theorem parseAiLine_some (cfg : RegionCfg) (line : String) (rec : Lead)
    (h : parseAiLine cfg line = some rec) :
    company_matches_target rec.company cfg.signals = true ∧
      (∃ x, rec.phone = normalize_phone x) ∧
      rec.leadType = (if rec.phone ≠ "Visit Website" then "Phone Verified" else "Link Only") := by
  unfold parseAiLine at h
  by_cases h3 : 3 ≤ ((pySplitChar '|' line).map pyStrip).length
  · rw [if_pos h3] at h
    by_cases hm : company_matches_target (((pySplitChar '|' line).map pyStrip).getD 0 "") cfg.signals
    · rw [if_pos hm] at h
      cases h
      exact ⟨hm, ⟨((pySplitChar '|' line).map pyStrip).getD 1 "", rfl⟩, rfl⟩
    · rw [if_neg hm] at h; cases h
  · rw [if_neg h3] at h; cases h

theorem mem_aiLeads (raw : String) (cfg : RegionCfg) (rec : Lead)
    (h : rec ∈ aiLeads raw cfg) :
    company_matches_target rec.company cfg.signals = true ∧
      (∃ x, rec.phone = normalize_phone x) ∧
      rec.leadType = (if rec.phone ≠ "Visit Website" then "Phone Verified" else "Link Only") := by
  unfold aiLeads at h
  rcases List.mem_filterMap.mp h with ⟨line, _, hline⟩
  exact parseAiLine_some cfg line rec hline

theorem mem_fallbackGo (cfg : RegionCfg) (service : Service) (rnd : Nat → Nat) :
    ∀ (lines : List String) (company link : String) (i : Nat) (rec : Lead),
    rec ∈ fallbackGo cfg service rnd lines company link i →
    company_matches_target rec.company cfg.signals = true ∧
      (∃ line ∈ lines, rec.phone = extract_phone_line line) ∧
      (∃ k, rec.decisionMaker = pyChoice (ROLES_BY_SERVICE service) k) ∧
      rec.leadType = (if rec.phone ≠ "Visit Website" then "Phone Verified" else "Link Only") := by
  intro lines
  induction lines with
  | nil => intro company link i rec h; simp [fallbackGo] at h
  | cons line rest ih =>
    intro company link i rec h
    simp only [fallbackGo] at h
    by_cases h1 : pyStartsWith line "Source:"
    · rw [if_pos h1] at h
      obtain ⟨ha, ⟨l, hl, hp⟩, hd, ht⟩ := ih _ _ _ _ h
      exact ⟨ha, ⟨l, List.mem_cons_of_mem _ hl, hp⟩, hd, ht⟩
    · rw [if_neg h1] at h
      by_cases h2 : pyStartsWith line "URL:"
      · rw [if_pos h2] at h
        obtain ⟨ha, ⟨l, hl, hp⟩, hd, ht⟩ := ih _ _ _ _ h
        exact ⟨ha, ⟨l, List.mem_cons_of_mem _ hl, hp⟩, hd, ht⟩
      · rw [if_neg h2] at h
        by_cases h3 : pyContains line "Snippet:"
        · rw [if_pos h3] at h
          by_cases h4 : company_matches_target company cfg.signals
          · rw [if_pos h4] at h
            rcases List.mem_cons.mp h with h | h
            · subst h
              exact ⟨h4, ⟨line, List.mem_cons_self _ _, rfl⟩, ⟨rnd i, rfl⟩, rfl⟩
            · obtain ⟨ha, ⟨l, hl, hp⟩, hd, ht⟩ := ih _ _ _ _ h
              exact ⟨ha, ⟨l, List.mem_cons_of_mem _ hl, hp⟩, hd, ht⟩
          · rw [if_neg h4] at h
            obtain ⟨ha, ⟨l, hl, hp⟩, hd, ht⟩ := ih _ _ _ _ h
            exact ⟨ha, ⟨l, List.mem_cons_of_mem _ hl, hp⟩, hd, ht⟩
        · rw [if_neg h3] at h
          obtain ⟨ha, ⟨l, hl, hp⟩, hd, ht⟩ := ih _ _ _ _ h
          exact ⟨ha, ⟨l, List.mem_cons_of_mem _ hl, hp⟩, hd, ht⟩

theorem getD_mem_of_lt (l : List String) (n : Nat) (d : String) (h : n < l.length) :
    l.getD n d ∈ l := by
  rw [List.getD_eq_getElem l d h]
  exact List.getElem_mem h

theorem ROLES_BY_SERVICE_ne_nil (s : Service) : ROLES_BY_SERVICE s ≠ [] := by
  cases s <;> simp [ROLES_BY_SERVICE]

theorem pyChoice_mem (l : List String) (k : Nat) (h : l ≠ []) : pyChoice l k ∈ l :=
  getD_mem_of_lt l (k % l.length) "" (Nat.mod_lt _ (List.length_pos.mpr h))

theorem dropDuplicatesGo_company_notin :
    ∀ (ls : List Lead) (seen : List String) (x : Lead),
    x ∈ dropDuplicatesGo seen ls → x.company ∉ seen := by
  intro ls
  induction ls with
  | nil => intro seen x h; simp [dropDuplicatesGo] at h
  | cons l ls ih =>
    intro seen x h
    simp only [dropDuplicatesGo] at h
    by_cases hc : l.company ∈ seen
    · rw [if_pos hc] at h; exact ih _ _ h
    · rw [if_neg hc] at h
      rcases List.mem_cons.mp h with h | h
      · subst h; exact hc
      · intro hx
        exact ih _ _ h (List.mem_cons_of_mem _ hx)

theorem dropDuplicatesGo_pairwise :
    ∀ (ls : List Lead) (seen : List String),
    (dropDuplicatesGo seen ls).Pairwise (fun a b => a.company ≠ b.company) := by
  intro ls
  induction ls with
  | nil => intro seen; simp [dropDuplicatesGo]
  | cons l ls ih =>
    intro seen
    simp only [dropDuplicatesGo]
    by_cases hc : l.company ∈ seen
    · rw [if_pos hc]; exact ih _
    · rw [if_neg hc]
      refine List.Pairwise.cons ?_ (ih _)
      intro b hb hbc
      exact dropDuplicatesGo_company_notin ls _ b hb (hbc ▸ List.mem_cons_self _ _)

theorem dropDuplicatesGo_eq_self :
    ∀ (ls : List Lead) (seen : List String),
    ls.Pairwise (fun a b => a.company ≠ b.company) →
    (∀ x ∈ ls, x.company ∉ seen) →
    dropDuplicatesGo seen ls = ls := by
  intro ls
  induction ls with
  | nil => intro seen _ _; rfl
  | cons l ls ih =>
    intro seen hp hs
    simp only [dropDuplicatesGo]
    rw [if_neg (hs l (List.mem_cons_self _ _))]
    congr 1
    refine ih _ (List.pairwise_cons.mp hp).2 ?_
    intro x hx
    intro hmem
    rcases List.mem_cons.mp hmem with h | h
    · exact (List.pairwise_cons.mp hp).1 x hx h.symm
    · exact hs x (List.mem_cons_of_mem _ hx) h

/-! ### Lemmas about the phone regex -/

theorem isClassChar_of_isDigit (c : Char) (h : c.isDigit = true) : isClassChar c = true := by
  simp [isClassChar, h]

theorem keepChar_eq_isDigit_of_class (c : Char) (h : isClassChar c = true) :
    keepChar c = c.isDigit := by
  by_cases hd : c.isDigit = true
  · simp [keepChar, hd]
  · simp only [isClassChar, hd, Bool.false_or] at h
    have hne : c ≠ '+' := by
      rcases Bool.or_eq_true_iff.mp h with h' | h'
      · intro hc; subst hc; simp at h'
      · intro hc; subst hc; simp at h'
    simp [keepChar, hd, hne]

theorem filter_keep_eq_filter_digit (l : List Char) (h : ∀ c ∈ l, isClassChar c = true) :
    l.filter keepChar = l.filter Char.isDigit :=
  List.filter_congr (fun c hc => keepChar_eq_isDigit_of_class c (h c hc))

theorem takeWhile_append_all (p : Char → Bool) :
    ∀ (l₁ l₂ : List Char), (∀ a ∈ l₁, p a = true) →
    (l₁ ++ l₂).takeWhile p = l₁ ++ l₂.takeWhile p := by
  intro l₁
  induction l₁ with
  | nil => intro l₂ _; rfl
  | cons a as ih =>
    intro l₂ h
    have ha := h a (List.mem_cons_self _ _)
    have ih' := ih l₂ (fun x hx => h x (List.mem_cons_of_mem _ hx))
    simp [List.cons_append, List.takeWhile_cons, ha, ih']

theorem mem_takeWhile_class (l : List Char) (c : Char)
    (h : c ∈ l.takeWhile isClassChar) : isClassChar c = true :=
  List.mem_takeWhile_imp h

theorem phoneMatchAt_none_of (c : Char) (t : List Char)
    (h1 : c.isDigit = false) (h2 : c ≠ '+') : phoneMatchAt (c :: t) = none := by
  simp [phoneMatchAt, h1, h2]

theorem findPhone_cons_none (c : Char) (t : List Char)
    (h : phoneMatchAt (c :: t) = none) : findPhone (c :: t) = findPhone t := by
  simp [findPhone, h]

theorem findPhone_append (pre rest : List Char)
    (h : ∀ c ∈ pre, c.isDigit = false ∧ c ≠ '+') :
    findPhone (pre ++ rest) = findPhone rest := by
  induction pre with
  | nil => rfl
  | cons c cs ih =>
    have hc := h c (List.mem_cons_self _ _)
    rw [List.cons_append,
      findPhone_cons_none c (cs ++ rest) (phoneMatchAt_none_of c _ hc.1 hc.2)]
    exact ih (fun x hx => h x (List.mem_cons_of_mem _ hx))

theorem digitCount_take_le (l : List Char) (n : Nat) :
    digitCount (l.take n) ≤ digitCount l :=
  ((List.take_sublist n l).filter _).length_le

theorem length_filter_keep_of_class (l : List Char) (h : ∀ c ∈ l, isClassChar c = true) :
    (l.filter keepChar).length = digitCount l := by
  rw [filter_keep_eq_filter_digit l h]; rfl

theorem takeWhile_class_all (l : List Char) :
    ∀ c ∈ l.takeWhile isClassChar, isClassChar c = true :=
  fun _ h => List.mem_takeWhile_imp h

theorem take_takeWhile_class_all (l : List Char) (n : Nat) :
    ∀ c ∈ (l.takeWhile isClassChar).take n, isClassChar c = true :=
  fun c h => takeWhile_class_all l c ((List.take_sublist n _).mem h)

theorem phoneMatchAt_keep_lt (cs m : List Char)
    (hbig : digitCount (cs.takeWhile isClassChar) < 8)
    (hplus : ∀ t, cs = '+' :: t → digitCount (t.takeWhile isClassChar) < 7)
    (hm : phoneMatchAt cs = some m) :
    (m.filter keepChar).length < 8 := by
  cases cs with
  | nil => simp [phoneMatchAt] at hm
  | cons c rest =>
    by_cases hc : c = '+'
    · subst hc
      cases rest with
      | nil => simp [phoneMatchAt] at hm
      | cons c2 rest2 =>
        simp only [phoneMatchAt, if_pos rfl] at hm
        by_cases hd : c2.isDigit = true
        · rw [if_pos hd] at hm
          by_cases hr : 8 ≤ (rest2.takeWhile isClassChar).length
          · rw [if_pos hr] at hm
            cases hm
            have hp := hplus (c2 :: rest2) rfl
            rw [List.takeWhile_cons, if_pos (isClassChar_of_isDigit c2 hd)] at hp
            have hp' : digitCount (rest2.takeWhile isClassChar) < 6 := by
              unfold digitCount at hp ⊢
              rw [List.filter_cons_of_pos hd, List.length_cons] at hp
              omega
            have hkeep2 : keepChar c2 = true := by simp [keepChar, hd]
            have hkeepP : keepChar '+' = true := by simp [keepChar]
            rw [List.filter_cons_of_pos hkeepP, List.filter_cons_of_pos hkeep2,
              List.length_cons, List.length_cons,
              length_filter_keep_of_class _ (take_takeWhile_class_all rest2 15)]
            have := digitCount_take_le (rest2.takeWhile isClassChar) 15
            omega
          · rw [if_neg hr] at hm; cases hm
        · rw [if_neg hd] at hm; cases hm
    · simp only [phoneMatchAt, if_neg hc] at hm
      by_cases hd : c.isDigit = true
      · rw [if_pos hd] at hm
        by_cases hr : 8 ≤ (rest.takeWhile isClassChar).length
        · rw [if_pos hr] at hm
          cases hm
          rw [List.takeWhile_cons, if_pos (isClassChar_of_isDigit c hd)] at hbig
          have hb' : digitCount (rest.takeWhile isClassChar) < 7 := by
            unfold digitCount at hbig ⊢
            rw [List.filter_cons_of_pos hd, List.length_cons] at hbig
            omega
          have hkeep : keepChar c = true := by simp [keepChar, hd]
          rw [List.filter_cons_of_pos hkeep, List.length_cons,
            length_filter_keep_of_class _ (take_takeWhile_class_all rest 15)]
          have := digitCount_take_le (rest.takeWhile isClassChar) 15
          omega
        · rw [if_neg hr] at hm; cases hm
      · rw [if_neg hd] at hm; cases hm

theorem tails_cons_eq (c : Char) (rest : List Char) :
    (c :: rest).tails = (c :: rest) :: rest.tails := by
  rfl

theorem noBigRunB_tail (c : Char) (rest : List Char) (h : noBigRunB (c :: rest) = true) :
    noBigRunB rest = true := by
  unfold noBigRunB at h ⊢
  rw [tails_cons_eq] at h
  simp only [List.all_cons, Bool.and_eq_true] at h
  exact h.2

theorem noPlusRunB_tail (c : Char) (rest : List Char) (h : noPlusRunB (c :: rest) = true) :
    noPlusRunB rest = true := by
  unfold noPlusRunB at h ⊢
  rw [tails_cons_eq] at h
  simp only [List.all_cons, Bool.and_eq_true] at h
  exact h.2

theorem noBigRunB_self (cs : List Char) (h : noBigRunB cs = true) :
    digitCount (cs.takeWhile isClassChar) < 8 := by
  cases cs with
  | nil => simp [digitCount, List.takeWhile]
  | cons c rest =>
    unfold noBigRunB at h
    rw [tails_cons_eq] at h
    simp only [List.all_cons, Bool.and_eq_true] at h
    exact of_decide_eq_true h.1

theorem noPlusRunB_self (cs : List Char) (h : noPlusRunB cs = true) :
    ∀ t, cs = '+' :: t → digitCount (t.takeWhile isClassChar) < 7 := by
  intro t ht
  subst ht
  unfold noPlusRunB at h
  rw [tails_cons_eq] at h
  simp only [List.all_cons, Bool.and_eq_true] at h
  exact of_decide_eq_true h.1

theorem findPhone_keep_lt : ∀ (cs : List Char),
    noBigRunB cs = true → noPlusRunB cs = true →
    ∀ m, findPhone cs = some m → (m.filter keepChar).length < 8 := by
  intro cs
  induction cs with
  | nil => intro _ _ m hm; simp [findPhone] at hm
  | cons c rest ih =>
    intro h1 h2 m hm
    simp only [findPhone] at hm
    cases hma : phoneMatchAt (c :: rest) with
    | some m' =>
      rw [hma] at hm
      cases hm
      exact phoneMatchAt_keep_lt _ _ (noBigRunB_self _ h1) (noPlusRunB_self _ h2) hma
    | none =>
      rw [hma] at hm
      exact ih (noBigRunB_tail c rest h1) (noPlusRunB_tail c rest h2) m hm

theorem extract_phone_line_sentinel (line : String)
    (h1 : noBigRunB line.data = true) (h2 : noPlusRunB line.data = true) :
    extract_phone_line line = "Visit Website" := by
  unfold extract_phone_line
  cases hf : findPhone line.data with
  | none => rfl
  | some m =>
    have hlt := findPhone_keep_lt line.data h1 h2 m hf
    show normalize_phone (String.mk m) = "Visit Website"
    unfold normalize_phone
    rw [if_neg]
    intro hge
    have hlen : (String.mk ((String.mk m).data.filter keepChar)).length
        = (m.filter keepChar).length := rfl
    omega

theorem url_not_source (x : String) (h : pyStartsWith x "URL:" = true) :
    pyStartsWith x "Source:" = false := by
  unfold pyStartsWith at h ⊢
  cases hx : x.data with
  | nil => rw [hx] at h; simp [List.isPrefixOf] at h
  | cons c cs =>
    rw [hx] at h
    have h' : List.isPrefixOf ('U' :: "RL:".data) (c :: cs) = true := h
    have h2 : ('U' == c) = true := by
      by_contra hne
      simp only [List.isPrefixOf, Bool.and_eq_true] at h'
      exact hne (by simp [h'.1])
    have hc : c = 'U' := (beq_iff_eq.mp h2).symm
    subst hc
    show List.isPrefixOf ('S' :: "ource:".data) ('U' :: cs) = false
    simp [List.isPrefixOf]

/-! ### The claims -/

/-- C2, counterexample: the AI-parsed line (and likewise the regex
fallback, as here) can yield the phone value `"+1234567"`, which has
only 7 digits: `normalize_phone` counts the leading `+` toward its
8-character minimum.  This refutes the claim that a produced phone is
always 8+ digits optionally prefixed with `+`. -/
theorem c2_counterexample :
    (extract_leads (.error "e")
        "Source: Acme Corp\nSnippet: call +12-34-567--  now\nURL: https://x.com"
        .usaTop .hiring (fun _ => 0) 5).map (fun r => r.phone) = ["+1234567"] ∧
    (("+1234567" : String).data.filter Char.isDigit).length = 7 := by
  exact ⟨rfl, rfl⟩

/-- C2 (amended): every phone value produced by `extract_leads` is
either the sentinel `"Visit Website"` or a string of at least 8
characters, each of which is a digit or `+` (the `+` counts toward the
minimum and need not be a single leading prefix). -/
theorem c2_phone_shape (aiResp : Except String String) (ctx : String) (region : Region)
    (service : Service) (rnd : Nat → Nat) (count : Nat) (rec : Lead)
    (h : rec ∈ extract_leads aiResp ctx region service rnd count) :
    rec.phone = "Visit Website" ∨
      (8 ≤ rec.phone.length ∧ rec.phone.data.all keepChar = true) := by
  have hm := mem_leadsOf_of_mem_extract_leads _ _ _ _ _ _ _ h
  rcases mem_leadsOf_cases _ _ _ _ _ _ hm with ⟨raw, _, hai⟩ | hfb
  · rcases (mem_aiLeads _ _ _ hai).2.1 with ⟨x, hx⟩
    rw [hx]
    exact normalize_phone_spec x
  · unfold fallbackLeads at hfb
    obtain ⟨_, ⟨line, _, hp⟩, _, _⟩ := mem_fallbackGo _ _ _ _ _ _ _ _ hfb
    rw [hp]
    rcases extract_phone_line_spec line with hs | ⟨x, hx⟩
    · rw [hs]; left; rfl
    · rw [hx]; exact normalize_phone_spec x

/-- Witness for C2 (amended) at a concrete run. -/
theorem c2_phone_shape_witness :
    (Lead.mk "Acme Corp" "+1234567" "HR Manager" "N/A" "US" "Listed Enterprise"
        "Phone Verified").phone = "Visit Website" ∨
      (8 ≤ (Lead.mk "Acme Corp" "+1234567" "HR Manager" "N/A" "US" "Listed Enterprise"
        "Phone Verified").phone.length ∧
       (Lead.mk "Acme Corp" "+1234567" "HR Manager" "N/A" "US" "Listed Enterprise"
        "Phone Verified").phone.data.all keepChar = true) :=
  c2_phone_shape (.error "e")
    "Source: Acme Corp\nSnippet: call +12-34-567--  now\nURL: https://x.com"
    .usaTop .hiring (fun _ => 0) 5 _ (by decide)

/-- C6: `extract_leads` never returns more than `count` records; and
when the surviving candidate list (before the pandas dedup/truncation)
has pairwise-distinct companies and at most `count` entries, the output
is exactly that list.  (Duplicate companies are removed before the
truncation — see C7 — so "the surviving records" are returned verbatim
exactly in the duplicate-free case.) -/
theorem c6_count_bound (aiResp : Except String String) (ctx : String) (region : Region)
    (service : Service) (rnd : Nat → Nat) (count : Nat) :
    (extract_leads aiResp ctx region service rnd count).length ≤ count ∧
      ((leadsOf aiResp ctx region service rnd).Pairwise (fun a b => a.company ≠ b.company) →
        (leadsOf aiResp ctx region service rnd).length ≤ count →
        extract_leads aiResp ctx region service rnd count
          = leadsOf aiResp ctx region service rnd) := by
  constructor
  · exact List.length_take_le _ _
  · intro hp hl
    unfold extract_leads drop_duplicates
    rw [dropDuplicatesGo_eq_self _ _ hp (fun x _ => List.not_mem_nil _)]
    exact List.take_of_length_le hl

/-- Witness for C6 at a concrete run with one surviving candidate and
`count = 5`. -/
theorem c6_count_bound_witness :
    extract_leads (.error "e") "Source: Acme Corp\nSnippet: hi\nURL: https://x.com"
        .usaTop .hiring (fun _ => 0) 5
      = leadsOf (.error "e") "Source: Acme Corp\nSnippet: hi\nURL: https://x.com"
        .usaTop .hiring (fun _ => 0) :=
  (c6_count_bound (.error "e") "Source: Acme Corp\nSnippet: hi\nURL: https://x.com"
    .usaTop .hiring (fun _ => 0) 5).2 (by decide) (by decide)

/-- C7: the output of `extract_leads` contains no two records with the
same company value (pandas `drop_duplicates` keeps the first row of
each company, case-sensitively, before `head(count)`). -/
theorem c7_no_duplicate_companies (aiResp : Except String String) (ctx : String)
    (region : Region) (service : Service) (rnd : Nat → Nat) (count : Nat) :
    (extract_leads aiResp ctx region service rnd count).Pairwise
      (fun a b => a.company ≠ b.company) := by
  unfold extract_leads drop_duplicates
  exact (dropDuplicatesGo_pairwise _ _).sublist (List.take_sublist _ _)

/-- C8, counterexample: `get_simulation_data` draws the decision maker
from the concatenation of all services' role lists, ignoring the
selected service — here it emits the Sourcing-only role
`"Procurement Head"`, which is not in `ROLES_BY_SERVICE` for Hiring,
refuting the claim for simulation mode. -/
theorem c8_counterexample :
    (get_simulation_data .ukStartups 1 (fun _ => 0) (fun _ => 5)).map
        (fun r => r.decisionMaker) = ["Procurement Head"] ∧
      (ROLES_BY_SERVICE .hiring).contains "Procurement Head" = false := by
  exact ⟨rfl, rfl⟩

/-- C8 (amended): in the regex-fallback pass the decision maker is
always drawn from the selected service's role list.  (Simulation mode
draws from all services' roles, and the AI pass copies the model's
third column verbatim, so the claim holds only for the fallback.) -/
theorem c8_fallback_roles (cfg : RegionCfg) (service : Service) (rnd : Nat → Nat)
    (lines : List String) (company link : String) (i : Nat) (rec : Lead)
    (h : rec ∈ fallbackGo cfg service rnd lines company link i) :
    rec.decisionMaker ∈ ROLES_BY_SERVICE service := by
  obtain ⟨_, _, ⟨k, hk⟩, _⟩ := mem_fallbackGo cfg service rnd lines company link i rec h
  rw [hk]
  exact pyChoice_mem _ _ (ROLES_BY_SERVICE_ne_nil service)

/-- Witness for C8 (amended) at a concrete fallback run. -/
theorem c8_fallback_roles_witness :
    (Lead.mk "Acme Corp" "Visit Website" "HR Manager" "N/A" "US" "Listed Enterprise"
        "Link Only").decisionMaker ∈ ROLES_BY_SERVICE .hiring :=
  c8_fallback_roles (REGION_MAP .usaTop) .hiring (fun _ => 0)
    ["Source: Acme Corp", "Snippet: hi", "URL: https://x.com"] "Unknown Company" "N/A" 0
    _ (by decide)

/-- C10: every record emitted by `extract_leads` — from either pass —
has a company name containing, case-insensitively as a substring, at
least one of the selected region's signal keywords; candidates failing
this check are dropped (an undocumented filter). -/
theorem c10_signal_filter (aiResp : Except String String) (ctx : String) (region : Region)
    (service : Service) (rnd : Nat → Nat) (count : Nat) (rec : Lead)
    (h : rec ∈ extract_leads aiResp ctx region service rnd count) :
    ((REGION_MAP region).signals.any
      (fun sig => pyContains (pyLower rec.company) (pyLower sig))) = true := by
  have hm := mem_leadsOf_of_mem_extract_leads _ _ _ _ _ _ _ h
  have hc : company_matches_target rec.company (REGION_MAP region).signals = true := by
    rcases mem_leadsOf_cases _ _ _ _ _ _ hm with ⟨raw, _, hai⟩ | hfb
    · exact (mem_aiLeads _ _ _ hai).1
    · unfold fallbackLeads at hfb
      exact (mem_fallbackGo _ _ _ _ _ _ _ _ hfb).1
  exact hc

/-- Witness for C10 at a concrete run (signal `"Corp"` matches
`"Acme Corp"`). -/
theorem c10_signal_filter_witness :
    ((REGION_MAP .usaTop).signals.any
      (fun sig => pyContains (pyLower (Lead.mk "Acme Corp" "Visit Website" "HR Manager" "N/A"
        "US" "Listed Enterprise" "Link Only").company) (pyLower sig))) = true :=
  c10_signal_filter (.error "e") "Source: Acme Corp\nSnippet: hi\nURL: https://x.com"
    .usaTop .hiring (fun _ => 0) 5 _ (by decide)

/-- C3, counterexample: the snippet `"Snippet: 12345678"` contains a
run of exactly 8 digits, yet the extraction returns the sentinel, not
the digits: the regex `\+?\d[\d \-]{8,15}` needs at least 9 characters,
so an 8-digit run at the end of the line is never matched. -/
theorem c3_counterexample :
    ("Snippet: 12345678" : String).data
        = ("Snippet: " : String).data ++ '1' :: ("2345678" : String).data ∧
      ('1' :: ("2345678" : String).data).all Char.isDigit = true ∧
      ('1' :: ("2345678" : String).data).length = 8 ∧
      extract_phone_line "Snippet: 12345678" = "Visit Website" := by
  exact ⟨rfl, rfl, rfl, rfl⟩

/-- Equation for `phoneMatchAt` at a digit head. -/
theorem phoneMatchAt_digit (c : Char) (rest : List Char) (hplus : c ≠ '+')
    (hd : c.isDigit = true) (hr : 8 ≤ (rest.takeWhile isClassChar).length) :
    phoneMatchAt (c :: rest) = some (c :: (rest.takeWhile isClassChar).take 15) := by
  simp only [phoneMatchAt]
  rw [if_neg hplus, if_pos hd, if_pos hr]

/-- C3 (amended): when the snippet is a prefix with no digits or plus
signs, followed by a maximal run of digits/spaces/dashes that starts
with a digit, spans 9–16 characters and contains at least 8 digits,
the extraction returns exactly the digits of that run, in order.
(As the counterexample shows, a run spanning only 8 characters is not
matched; runs spanning more than 16 characters are truncated to the
first 16, and a `+`-prefixed run of 7 digits also yields a phone
value, so the original unbounded statement fails.) -/
theorem c3_phone_run_captured (pre r' post : List Char) (d : Char)
    (hd : d.isDigit = true)
    (hpre : ∀ c ∈ pre, c.isDigit = false ∧ c ≠ '+')
    (hr : ∀ c ∈ r', isClassChar c = true)
    (hlen1 : 8 ≤ r'.length) (hlen2 : r'.length ≤ 15)
    (hdig : 8 ≤ digitCount (d :: r'))
    (hpost : ∀ c ∈ post.take 1, isClassChar c = false) :
    extract_phone_line (String.mk (pre ++ d :: r' ++ post))
      = String.mk ((d :: r').filter Char.isDigit) := by
  have hplus : d ≠ '+' := by
    intro hh
    subst hh
    exact absurd hd (by decide)
  have hrun : (r' ++ post).takeWhile isClassChar = r' := by
    rw [takeWhile_append_all isClassChar r' post hr]
    cases post with
    | nil => simp
    | cons p ps =>
      have hp := hpost p (by simp)
      simp [List.takeWhile_cons, hp]
  have h1 : findPhone (pre ++ d :: r' ++ post) = findPhone (d :: (r' ++ post)) := by
    rw [show pre ++ d :: r' ++ post = pre ++ (d :: (r' ++ post)) from by simp]
    exact findPhone_append pre _ hpre
  have h2 : phoneMatchAt (d :: (r' ++ post)) = some (d :: r') := by
    rw [phoneMatchAt_digit d (r' ++ post) hplus hd (by rw [hrun]; exact hlen1), hrun,
      List.take_of_length_le hlen2]
  have h3 : findPhone (d :: (r' ++ post)) = some (d :: r') := by
    simp only [findPhone]
    rw [h2]
  show (match findPhone (pre ++ d :: r' ++ post) with
    | some m => normalize_phone (String.mk m)
    | none => "Visit Website") = String.mk ((d :: r').filter Char.isDigit)
  rw [h1, h3]
  show normalize_phone (String.mk (d :: r')) = String.mk ((d :: r').filter Char.isDigit)
  have hclass : ∀ c ∈ d :: r', isClassChar c = true := by
    intro c hc
    rcases List.mem_cons.mp hc with rfl | hc
    · exact isClassChar_of_isDigit _ hd
    · exact hr c hc
  have hfilter : (d :: r').filter keepChar = (d :: r').filter Char.isDigit :=
    filter_keep_eq_filter_digit _ hclass
  show (if 8 ≤ (String.mk ((d :: r').filter keepChar)).length
      then String.mk ((d :: r').filter keepChar) else "Visit Website")
    = String.mk ((d :: r').filter Char.isDigit)
  rw [hfilter]
  rw [if_pos ?_]
  show 8 ≤ ((d :: r').filter Char.isDigit).length
  exact hdig

/-- Witness for C3 (amended) on the spec's own UK number. -/
theorem c3_phone_run_captured_witness :
    extract_phone_line (String.mk (("Snippet: call " : String).data
        ++ '0' :: ("20 7946 0958" : String).data ++ []))
      = String.mk (('0' :: ("20 7946 0958" : String).data).filter Char.isDigit) :=
  c3_phone_run_captured ("Snippet: call " : String).data ("20 7946 0958" : String).data []
    '0' (by decide) (by decide) (by decide) (by decide) (by decide) (by decide) (by decide)

/-- C4, counterexample: in this snippet every block of
digits/spaces/dashes contains at most 7 digits (so there is no digit
run of length ≥ 8), yet the fallback produces the phone `"+1234567"`
and lead type `"Phone Verified"`, because `normalize_phone` counts the
captured `+` toward its minimum. -/
theorem c4_counterexample :
    noBigRunB ("Snippet: +12-34-567-- ok" : String).data = true ∧
      (extract_leads (.error "e")
          "Source: Acme Corp\nSnippet: +12-34-567-- ok\nURL: https://x.com"
          .usaTop .hiring (fun _ => 0) 5).map (fun r => (r.phone, r.leadType))
        = [("+1234567", "Phone Verified")] := by
  exact ⟨by decide, rfl⟩

/-- C4 (amended): if in every line of the context each block of
digits/spaces/dashes contains at most 7 digits, and no block holding 7
or more digits is immediately preceded by a `+`, then every record the
regex fallback produces carries the sentinel `"Visit Website"` and lead
type `"Link Only"`.  (The extra `+` condition is forced by the
counterexample.) -/
theorem c4_no_run_sentinel (e : String) (ctx : String) (region : Region)
    (service : Service) (rnd : Nat → Nat) (count : Nat)
    (hlines : ∀ line ∈ pySplitChar '\n' ctx,
      noBigRunB line.data = true ∧ noPlusRunB line.data = true)
    (rec : Lead) (h : rec ∈ extract_leads (.error e) ctx region service rnd count) :
    rec.phone = "Visit Website" ∧ rec.leadType = "Link Only" := by
  have hm := mem_leadsOf_of_mem_extract_leads _ _ _ _ _ _ _ h
  rcases mem_leadsOf_cases _ _ _ _ _ _ hm with ⟨raw, hraw, _⟩ | hfb
  · cases hraw
  · unfold fallbackLeads at hfb
    obtain ⟨_, ⟨line, hline, hp⟩, _, ht⟩ := mem_fallbackGo _ _ _ _ _ _ _ _ hfb
    have hs := extract_phone_line_sentinel line (hlines line hline).1 (hlines line hline).2
    refine ⟨by rw [hp, hs], ?_⟩
    rw [ht, hp, hs]
    simp

/-- Witness for C4 (amended) at a concrete phone-free context. -/
theorem c4_no_run_sentinel_witness :
    (Lead.mk "Acme Corp" "Visit Website" "HR Manager" "N/A" "US" "Listed Enterprise"
        "Link Only").phone = "Visit Website" ∧
      (Lead.mk "Acme Corp" "Visit Website" "HR Manager" "N/A" "US" "Listed Enterprise"
        "Link Only").leadType = "Link Only" :=
  c4_no_run_sentinel "e" "Source: Acme Corp\nSnippet: call now\nURL: https://x.com"
    .usaTop .hiring (fun _ => 0) 5 (by decide) _ (by decide)

/-- C1, counterexample: `extract_leads` has no blocked-domain check at
all, so a record whose source link host contains `linkedin.com` is
emitted (the fallback even attaches the URL of the *previous* search
hit, since the `URL:` line follows the `Snippet:` line in
`search_google`'s format). -/
theorem c1_counterexample :
    (extract_leads (.error "boom")
        "Source: A\nSnippet: x\nURL: https://www.linkedin.com/company/acme\nSource: Beta Startup Ltd\nSnippet: y\nURL: https://www.beta.com"
        .ukStartups .hiring (fun _ => 0) 5).map (fun r => r.sourceLink)
      = ["https://www.linkedin.com/company/acme"] ∧
    pyContains "https://www.linkedin.com/company/acme" "linkedin.com" = true := by
  exact ⟨rfl, rfl⟩

/-- C1 (amended): the regex fallback applies no URL-based filtering
whatsoever — replacing the URLs carried by the `URL:` lines (and the
running link state) changes nothing but the records' source-link
field, so any host, including a blocked one such as `linkedin.com`,
flows through to the output.  (The AI pass likewise copies the model's
fourth column verbatim without any host check.) -/
theorem c1_urlFilter_absent (cfg : RegionCfg) (service : Service) (rnd : Nat → Nat)
    (lines₁ lines₂ : List String) (hf : List.Forall₂ UrlAgnostic lines₁ lines₂) :
    ∀ (company l₁ l₂ : String) (i : Nat),
    (fallbackGo cfg service rnd lines₁ company l₁ i).map projNoLink
      = (fallbackGo cfg service rnd lines₂ company l₂ i).map projNoLink := by
  induction hf with
  | nil => intro company l₁ l₂ i; rfl
  | @cons a b as bs hr htail ih =>
    intro company l₁ l₂ i
    rcases hr with rfl | ⟨hU₁, hU₂⟩
    · by_cases h1 : pyStartsWith a "Source:" = true
      · simp only [fallbackGo]
        rw [if_pos h1, if_pos h1]
        exact ih _ _ _ _
      · by_cases h2 : pyStartsWith a "URL:" = true
        · simp only [fallbackGo]
          rw [if_neg h1, if_neg h1, if_pos h2, if_pos h2]
          exact ih _ _ _ _
        · by_cases h3 : pyContains a "Snippet:" = true
          · by_cases h4 : company_matches_target company cfg.signals = true
            · simp only [fallbackGo]
              rw [if_neg h1, if_neg h1, if_neg h2, if_neg h2, if_pos h3, if_pos h3,
                if_pos h4, if_pos h4]
              simp only [List.map_cons]
              rw [ih company l₁ l₂ (i + 1)]
              rfl
            · simp only [fallbackGo]
              rw [if_neg h1, if_neg h1, if_neg h2, if_neg h2, if_pos h3, if_pos h3,
                if_neg h4, if_neg h4]
              exact ih _ _ _ _
          · simp only [fallbackGo]
            rw [if_neg h1, if_neg h1, if_neg h2, if_neg h2, if_neg h3, if_neg h3]
            exact ih _ _ _ _
    · have hn₁ : ¬ pyStartsWith a "Source:" = true := by
        rw [url_not_source a hU₁]; simp
      have hn₂ : ¬ pyStartsWith b "Source:" = true := by
        rw [url_not_source b hU₂]; simp
      simp only [fallbackGo]
      rw [if_neg hn₁, if_pos hU₁, if_neg hn₂, if_pos hU₂]
      exact ih _ _ _ _

/-- Witness for C1 (amended): swapping a linkedin URL for another
changes nothing but the source links. -/
theorem c1_urlFilter_absent_witness :
    (fallbackGo (REGION_MAP .ukStartups) .hiring (fun _ => 0)
        ["URL: https://www.linkedin.com/company/acme", "Source: Beta Startup Ltd", "Snippet: y"]
        "Unknown Company" "N/A" 0).map projNoLink
      = (fallbackGo (REGION_MAP .ukStartups) .hiring (fun _ => 0)
        ["URL: https://www.beta.com", "Source: Beta Startup Ltd", "Snippet: y"]
        "Unknown Company" "N/A" 0).map projNoLink :=
  c1_urlFilter_absent (REGION_MAP .ukStartups) .hiring (fun _ => 0)
    ["URL: https://www.linkedin.com/company/acme", "Source: Beta Startup Ltd", "Snippet: y"]
    ["URL: https://www.beta.com", "Source: Beta Startup Ltd", "Snippet: y"]
    (List.Forall₂.cons (Or.inr ⟨by rfl, by rfl⟩)
      (List.Forall₂.cons (Or.inl rfl)
        (List.Forall₂.cons (Or.inl rfl) List.Forall₂.nil)))
    "Unknown Company" "N/A" "N/A" 0

/-- C5, counterexample: there is no `clean_company_name` in this
revision — the fallback takes the raw title verbatim.  On the spec's
own example title the produced company is the whole string
`"Acme Corp | Contact Us"`, not `"Acme Corp"`. -/
theorem c5_counterexample :
    (extract_leads (.error "e")
        "Source: Acme Corp | Contact Us\nSnippet: info\nURL: https://acme.com"
        .usaTop .hiring (fun _ => 0) 5).map (fun r => r.company)
      = ["Acme Corp | Contact Us"] ∧
    (("Acme Corp | Contact Us" : String) == "Acme Corp") = false := by
  exact ⟨rfl, rfl⟩

/-- C5 (amended): the fallback's only company normalization is to
delete the `"Source:"` occurrences from the title line and trim
whitespace — nothing is cut at `|` or `-` and no `Contact...` phrase is
stripped; a matching candidate's record carries that verbatim string. -/
theorem c5_company_verbatim (cfg : RegionCfg) (service : Service) (rnd : Nat → Nat)
    (t snip : String) (rest : List String) (company link : String) (i : Nat)
    (hmatch : company_matches_target
      (pyStrip (pyReplace ("Source: " ++ t) "Source:" "")) cfg.signals = true) :
    fallbackGo cfg service rnd
        (("Source: " ++ t) :: ("Snippet: " ++ snip) :: rest) company link i
      = { company := pyStrip (pyReplace ("Source: " ++ t) "Source:" "")
          phone := extract_phone_line ("Snippet: " ++ snip)
          decisionMaker := pyChoice (ROLES_BY_SERVICE service) (rnd i)
          sourceLink := link
          location := pyUpper cfg.gl
          companyClass := cfg.cls
          leadType := if extract_phone_line ("Snippet: " ++ snip) ≠ "Visit Website"
            then "Phone Verified" else "Link Only" }
        :: fallbackGo cfg service rnd rest
            (pyStrip (pyReplace ("Source: " ++ t) "Source:" "")) link (i + 1) := by
  have h1 : pyStartsWith ("Source: " ++ t) "Source:" = true := by
    show List.isPrefixOf ("Source:" : String).data ("Source: " ++ t).data = true
    rw [String.data_append]
    rfl
  have h2 : pyStartsWith ("Snippet: " ++ snip) "Source:" = false := by
    show List.isPrefixOf ("Source:" : String).data ("Snippet: " ++ snip).data = false
    rw [String.data_append]
    rfl
  have h3 : pyStartsWith ("Snippet: " ++ snip) "URL:" = false := by
    show List.isPrefixOf ("URL:" : String).data ("Snippet: " ++ snip).data = false
    rw [String.data_append]
    rfl
  have h4 : pyContains ("Snippet: " ++ snip) "Snippet:" = true := by
    show listIsInfixOf ("Snippet:" : String).data ("Snippet: " ++ snip).data = true
    rw [String.data_append]
    rfl
  simp only [fallbackGo]
  rw [if_pos h1]
  rw [if_neg (fun hh => Bool.noConfusion (hh.symm.trans h2)),
    if_neg (fun hh => Bool.noConfusion (hh.symm.trans h3)),
    if_pos h4, if_pos hmatch]

/-- Witness for C5 (amended) on the spec's example title (signal
`"Corp"`, USA listed-enterprise region). -/
theorem c5_company_verbatim_witness :
    fallbackGo (REGION_MAP .usaTop) .hiring (fun _ => 0)
        (("Source: " ++ "Acme Corp | Contact Us") :: ("Snippet: " ++ "info") :: [])
        "Unknown Company" "N/A" 0
      = [Lead.mk "Acme Corp | Contact Us" "Visit Website" "HR Manager" "N/A" "US"
          "Listed Enterprise" "Link Only"] :=
  (c5_company_verbatim (REGION_MAP .usaTop) .hiring (fun _ => 0)
    "Acme Corp | Contact Us" "info" [] "Unknown Company" "N/A" 0 (by decide)).trans
    (by decide)

/-- C9: `search_google` surfaces every failure as `None` or an
`"API_ERROR: "`-prefixed string (the model is total, mirroring the
source's all-enclosing `try`/`except`), and `extract_leads` recovers a
failed or unparseable LLM call through the regex fallback, returning
`[]` when both passes yield nothing. -/
theorem c9_error_handling (query api_key cx gl : String) :
    (∀ e, search_google query api_key cx gl (.error e) = some ("API_ERROR: " ++ e)) ∧
    (∀ e, search_google query api_key cx gl (.ok (.error e)) = some ("API_ERROR: " ++ e)) ∧
    (∀ d msg, d.error = some msg →
      search_google query api_key cx gl (.ok (.ok d)) = some ("API_ERROR: " ++ msg)) ∧
    (∀ d, d.error = none → d.items = none →
      search_google query api_key cx gl (.ok (.ok d)) = none) ∧
    (∀ d items e, d.error = none → d.items = some items → buildResults items = .error e →
      search_google query api_key cx gl (.ok (.ok d)) = some ("API_ERROR: " ++ e)) ∧
    (∀ e ctx region service rnd count,
      extract_leads (.error e) ctx region service rnd count
        = (drop_duplicates (fallbackLeads ctx (REGION_MAP region) service rnd)).take count) ∧
    (∀ raw ctx region service rnd count, aiLeads raw (REGION_MAP region) = [] →
      extract_leads (.ok raw) ctx region service rnd count
        = (drop_duplicates (fallbackLeads ctx (REGION_MAP region) service rnd)).take count) ∧
    (∀ aiResp ctx region service rnd count,
      leadsOf aiResp ctx region service rnd = [] →
      extract_leads aiResp ctx region service rnd count = []) := by
  refine ⟨fun e => rfl, fun e => rfl, ?_, ?_, ?_, fun e ctx region service rnd count => rfl,
    ?_, ?_⟩
  · intro d msg h
    simp [search_google, h]
  · intro d h1 h2
    simp [search_google, h1, h2]
  · intro d items e h1 h2 h3
    simp [search_google, h1, h2, h3]
  · intro raw ctx region service rnd count h
    simp [extract_leads, leadsOf, h]
  · intro aiResp ctx region service rnd count h
    unfold extract_leads
    rw [h]
    simp [drop_duplicates, dropDuplicatesGo]

/-- Witness for C9 exercising each recoverable failure at concrete
inputs. -/
theorem c9_error_handling_witness :
    search_google "q" "k" "c" "uk" (.error "boom") = some ("API_ERROR: " ++ "boom") ∧
    search_google "q" "k" "c" "uk" (.ok (.ok ⟨some "quota", none⟩))
      = some ("API_ERROR: " ++ "quota") ∧
    search_google "q" "k" "c" "uk" (.ok (.ok ⟨none, none⟩)) = none ∧
    extract_leads (.error "fail") "" .ukStartups .hiring (fun _ => 0) 5 = [] := by
  refine ⟨(c9_error_handling "q" "k" "c" "uk").1 "boom",
    (c9_error_handling "q" "k" "c" "uk").2.2.1 ⟨some "quota", none⟩ "quota" rfl,
    (c9_error_handling "q" "k" "c" "uk").2.2.2.1 ⟨none, none⟩ rfl rfl,
    (c9_error_handling "q" "k" "c" "uk").2.2.2.2.2.2.2 (.error "fail") "" .ukStartups .hiring
      (fun _ => 0) 5 (by decide)⟩

end BPO
